import Mathlib

/-!
Shallow embedding of `net/l3mdev/l3mdev.c` (L3 master device core).

The handler registry (`l3mdev_handlers`, `l3mdev_check_type`,
`l3mdev_table_lookup_register`, `l3mdev_table_lookup_unregister`,
`l3mdev_ifindex_lookup_by_table_id`) is embedded as pure state-passing
functions over a registry map.  Function pointers are modelled by opaque
numeric identifiers interpreted through an environment, because C compares
callback pointers by identity (`hdlr->dev_ifindex_lookup_by_table_id != fn`).
The device model (`netif_is_l3_master`, `netif_is_l3_slave`,
`netdev_master_upper_dev_get_rcu`, `dev_get_by_index_rcu`), an external
collaborator of this file, is an abstract structure of total functions over
opaque device identifiers.
-/

/-- `L3MDEV_TYPE_UNSPEC`: the zero tag, never a valid registration target. -/
def L3MDEV_TYPE_UNSPEC : Int := 0

/-- Modelled from the spec: the fixed maximum of the domain-type enumeration
(`L3MDEV_TYPE_MAX`, defined in a header outside `src/`).  The spec fixes no
particular value, only that it is a positive bound; `2` is used here. -/
def L3MDEV_TYPE_MAX : Int := 2

/-- `-EINVAL` is `-22` on Linux. -/
def EINVAL : Int := 22

/-- `-EBUSY` is `-16` on Linux. -/
def EBUSY : Int := 16

/-- `struct l3mdev_handler` (l3mdev.c lines 16-19): a tag and a nullable
callback pointer.  The pointer is an opaque identifier (`Option Nat`,
`none` = NULL). -/
structure L3mdevHandler where
  l3type : Int
  dev_ifindex_lookup_by_table_id : Option Nat
deriving DecidableEq, Repr

/-- The registry array `l3mdev_handlers` as a total map from array index to
slot. -/
abbrev Registry := Int → L3mdevHandler

/-- `static struct l3mdev_handler l3mdev_handlers[...] = { 0, }` (line 21):
every slot starts zeroed: tag unspecified, callback NULL. -/
def l3mdev_handlers_init : Registry := fun _ => ⟨L3MDEV_TYPE_UNSPEC, none⟩

/-- `l3mdev_check_type` (lines 23-29). -/
def l3mdev_check_type (l3type : Int) : Int :=
  if l3type ≤ L3MDEV_TYPE_UNSPEC ∨ l3type > L3MDEV_TYPE_MAX then -EINVAL else 0

/-- Interpretation environment for callback identifiers: callback id ↦
(namespace ↦ table id ↦ returned ifindex).  Namespaces and table ids are
opaque. -/
abbrev Env := Nat → Nat → Nat → Int

/-- `l3mdev_table_lookup_register` (lines 31-60), as a function from the
registry state to (return value, new registry state). -/
def l3mdev_table_lookup_register (st : Registry) (l3type : Int) (fn : Nat) :
    Int × Registry :=
  if l3mdev_check_type l3type ≠ 0 then (l3mdev_check_type l3type, st)
  else
    let hdlr := st l3type
    if hdlr.l3type ≠ L3MDEV_TYPE_UNSPEC ∨
        hdlr.dev_ifindex_lookup_by_table_id ≠ none then
      (-EBUSY, st)
    else
      (0, fun t => if t = l3type then ⟨l3type, some fn⟩ else st t)

/-- `l3mdev_table_lookup_unregister` (lines 63-98).  The grace-period wait
(`synchronize_rcu`/`rcu_barrier`) has no effect on the registry state and is
treated in the concurrent model below. -/
def l3mdev_table_lookup_unregister (st : Registry) (l3type : Int) (fn : Nat) :
    Int × Registry :=
  if l3mdev_check_type l3type ≠ 0 then (l3mdev_check_type l3type, st)
  else
    let hdlr := st l3type
    if hdlr.l3type ≠ l3type ∨ hdlr.dev_ifindex_lookup_by_table_id ≠ some fn then
      (-EINVAL, st)
    else
      (0, fun t => if t = l3type then ⟨L3MDEV_TYPE_UNSPEC, none⟩ else st t)

/-- `l3mdev_ifindex_lookup_by_table_id` (lines 101-127): initializes
`ifindex = -EINVAL`, returns `-EINVAL` for an invalid type, dereferences the
slot's callback, returns the still-`-EINVAL` value when the callback is NULL,
otherwise invokes the callback. -/
def l3mdev_ifindex_lookup_by_table_id (env : Env) (st : Registry)
    (net : Nat) (table_id : Nat) (l3type : Int) : Int :=
  if l3mdev_check_type l3type ≠ 0 then l3mdev_check_type l3type
  else
    match (st l3type).dev_ifindex_lookup_by_table_id with
    | none => -EINVAL
    | some f => env f net table_id

/-- The external device-model collaborator, over one network namespace.
Devices are opaque identifiers (`Nat`, standing for `struct net_device *`);
each field is one of the kernel primitives the core calls:
`dev->ifindex`, `netif_is_l3_master`, `netif_is_l3_slave`,
`netdev_master_upper_dev_get_rcu` (also standing for its non-RCU variant,
which walks the same upper list), and `dev_get_by_index_rcu`. -/
structure DevModel where
  ifindex : Nat → Int
  netif_is_l3_master : Nat → Bool
  netif_is_l3_slave : Nat → Bool
  netdev_master_upper_dev_get_rcu : Nat → Option Nat
  dev_get_by_index_rcu : Int → Option Nat

/-- `l3mdev_master_ifindex_rcu` (lines 135-160): NULL device yields 0; an L3
master yields its own ifindex; an L3 slave yields its master upper device's
ifindex when one exists, else 0; any other device yields 0. -/
def l3mdev_master_ifindex_rcu (M : DevModel) (dev : Option Nat) : Int :=
  match dev with
  | none => 0
  | some d =>
    if M.netif_is_l3_master d then M.ifindex d
    else if M.netif_is_l3_slave d then
      match M.netdev_master_upper_dev_get_rcu d with
      | some master => M.ifindex master
      | none => 0
    else 0

/-- The exit test of the loop in `l3mdev_master_upper_ifindex_by_index_rcu`
(line 174): `!(dev && !netif_is_l3_master(dev))`. -/
def upperLoopDone (M : DevModel) : Option Nat → Bool
  | none => true
  | some d => M.netif_is_l3_master d

/-- The loop of `l3mdev_master_upper_ifindex_by_index_rcu` (lines 174-175),
made total with a fuel argument: `some dev` when the loop exits within `fuel`
iterations at cursor `dev`, `none` when the fuel runs out with the loop still
running (the C loop is unbounded and simply keeps iterating). -/
def upperWalk (M : DevModel) : Nat → Option Nat → Option (Option Nat)
  | 0, dev => if upperLoopDone M dev then some dev else none
  | fuel + 1, dev =>
    if upperLoopDone M dev then some dev
    else
      match dev with
      | none => some none
      | some d => upperWalk M fuel (M.netdev_master_upper_dev_get_rcu d)

/-- `l3mdev_master_upper_ifindex_by_index_rcu` (lines 169-179) with fuel:
`some r` when the loop exits within `fuel` iterations and the function
returns `r` (`dev ? dev->ifindex : 0`), `none` when the loop is still
running. -/
def l3mdev_master_upper_ifindex_by_index_rcu (M : DevModel) (fuel : Nat)
    (ifindex : Int) : Option Int :=
  (upperWalk M fuel (M.dev_get_by_index_rcu ifindex)).map fun r =>
    match r with
    | some m => M.ifindex m
    | none => 0

/-- `FLOWI_FLAG_SKIP_NH_OIF` (0x04 in `include/net/flow.h`). -/
def FLOWI_FLAG_SKIP_NH_OIF : Nat := 4

/-- `struct flowi`, restricted to the fields `l3mdev_update_flow` touches:
`flowi_oif`, `flowi_iif`, `flowi_flags`.  All remaining fields of the C
structure are untouched by the core and collapsed into `flowi_rest`. -/
structure Flowi where
  flowi_oif : Int
  flowi_iif : Int
  flowi_flags : Nat
  flowi_rest : Nat
deriving DecidableEq, Repr

/-- The repeated resolution block of `l3mdev_update_flow`
(lines 308-317 for `flowi_oif`, lines 320-328 for `flowi_iif`):
`some ifindex` exactly when the handle is nonzero, resolves to a device, and
`l3mdev_master_ifindex_rcu` on that device is nonzero. -/
def l3mdev_flow_master (M : DevModel) (h : Int) : Option Int :=
  if h ≠ 0 then
    match M.dev_get_by_index_rcu h with
    | some dev =>
      let ifindex := l3mdev_master_ifindex_rcu M (some dev)
      if ifindex ≠ 0 then some ifindex else none
    | none => none
  else none

/-- `l3mdev_update_flow` (lines 301-334).  The `goto out` after the output
interface substitution is rendered by the `match`: when the output block
hits, the input block is never examined. -/
def l3mdev_update_flow (M : DevModel) (fl : Flowi) : Flowi :=
  match l3mdev_flow_master M fl.flowi_oif with
  | some ifindex =>
    { fl with flowi_oif := ifindex,
              flowi_flags := fl.flowi_flags ||| FLOWI_FLAG_SKIP_NH_OIF }
  | none =>
    match l3mdev_flow_master M fl.flowi_iif with
    | some ifindex =>
      { fl with flowi_iif := ifindex,
                flowi_flags := fl.flowi_flags ||| FLOWI_FLAG_SKIP_NH_OIF }
    | none => fl

/-- Modelled from the spec: coherence of the external device model, from the
spec's device-model contract — a device identity is "an opaque integer
handle", so resolving a device's own handle in its namespace yields that
device back; and a domain slave is "enslaved to exactly one domain master",
so the master upper device of an L3 slave is an L3 master. -/
def DevModel.WellFormed (M : DevModel) : Prop :=
  (∀ d : Nat, M.dev_get_by_index_rcu (M.ifindex d) = some d) ∧
  (∀ d m : Nat, M.netif_is_l3_slave d = true →
    M.netdev_master_upper_dev_get_rcu d = some m →
    M.netif_is_l3_master m = true)

/-- `ReachesFirst M dev r`: starting the loop of
`l3mdev_master_upper_ifindex_by_index_rcu` at cursor `dev`, `r` is the first
cursor along the `netdev_master_upper_dev_get_rcu` chain that satisfies the
exit test — either the chain end (`none`) or the first L3 master found. -/
inductive ReachesFirst (M : DevModel) : Option Nat → Option Nat → Prop
  | chainEnd : ReachesFirst M none none
  | foundMaster (d : Nat) (h : M.netif_is_l3_master d = true) :
      ReachesFirst M (some d) (some d)
  | step (d : Nat) (r : Option Nat) (h : M.netif_is_l3_master d = false)
      (hr : ReachesFirst M (M.netdev_master_upper_dev_get_rcu d) r) :
      ReachesFirst M (some d) r

/-- Measure on loop cursors for termination: `none` is terminal. -/
def devRank (rank : Nat → Nat) : Option Nat → Nat
  | none => 0
  | some d => rank d + 1

/-- The loop of `l3mdev_master_upper_ifindex_by_index_rcu` never exits from
this start cursor, whatever the fuel. -/
def upperWalkDiverges (M : DevModel) (dev : Option Nat) : Prop :=
  ∀ fuel, upperWalk M fuel dev = none

/-- A device model with a non-progressing master chain: device `0` (ifindex
1) is an L3 slave, is not an L3 master, and its master upper device is
itself. -/
def Mcyc : DevModel where
  ifindex := fun d => (d : Int) + 1
  netif_is_l3_master := fun _ => false
  netif_is_l3_slave := fun _ => true
  netdev_master_upper_dev_get_rcu := fun d => some d
  dev_get_by_index_rcu := fun h => if h = 1 then some 0 else none

/-- The spec's registry invariant, restricted to the slots of valid
(nonzero) tags: a slot's callback is non-NULL exactly when its stored tag
equals its own index. -/
def RegIff (st : Registry) : Prop :=
  ∀ t : Int, 1 ≤ t → t ≤ L3MDEV_TYPE_MAX →
    ((st t).dev_ifindex_lookup_by_table_id ≠ none ↔ (st t).l3type = t)

/-- A well-formed concrete device model for witnesses: device `d` has
ifindex `d + 1`, every device is an L3 master and no device is a slave. -/
def MwfAllMasters : DevModel where
  ifindex := fun d => (d : Int) + 1
  netif_is_l3_master := fun _ => true
  netif_is_l3_slave := fun _ => false
  netdev_master_upper_dev_get_rcu := fun _ => none
  dev_get_by_index_rcu := fun h => if h ≤ 0 then none else some (h - 1).toNat

/-- A concrete device model for witnesses, matching the spec's scenario:
device identifiers coincide with ifindexes; device 5 is an L3 slave whose
master upper device is 42; device 42 is an L3 master; no other device
exists. -/
def Mscen : DevModel where
  ifindex := fun d => (d : Int)
  netif_is_l3_master := fun d => d = 42
  netif_is_l3_slave := fun d => d = 5
  netdev_master_upper_dev_get_rcu := fun d => if d = 5 then some 42 else none
  dev_get_by_index_rcu := fun h => if h = 5 then some 5 else if h = 42 then some 42 else none

/-!
Concurrent model of one `l3mdev_table_lookup_unregister(tg, fn)` call racing
with concurrent `l3mdev_ifindex_lookup_by_table_id` readers on tag `tg`.
The mutable shared state is the registry; each in-flight reader is recorded
together with the callback reference it obtained from the one
`rcu_dereference` of the slot (line 117).  The grace-period semantics of
`synchronize_rcu` (line 92) is modelled from the spec: the unregister call
may return only once every read-side critical section that was active at the
moment of the clear has exited.  Reader identifiers are fresh (`used`), and
`preClear` records the readers that were in flight when the slot was
cleared. -/
structure RcuState where
  reg : Registry
  active : List (Nat × Option Nat)
  preClear : List Nat
  used : List Nat
  cleared : Bool
  returned : Bool

/-- Start of the race: an arbitrary registry, no readers, the unregister
call neither past its clear nor returned. -/
def RcuState.init (reg0 : Registry) : RcuState :=
  ⟨reg0, [], [], [], false, false⟩

/-- One interleaving step of the race between readers of tag `tg` and the
single `l3mdev_table_lookup_unregister(tg, fn)` call:
`start` — a reader enters its critical section and dereferences the slot's
callback (line 117); `finish` — a reader exits its critical section;
`clear` — the unregister call takes its success path and clears the slot
(lines 87-88); `ret` — the unregister call returns, which the spec-modelled
grace period permits only once no reader active at the clear is still
active. -/
inductive RcuStep (tg : Int) (fn : Nat) : RcuState → RcuState → Prop
  | start (s : RcuState) (id : Nat) (hfresh : id ∉ s.used) :
      RcuStep tg fn s
        { s with
            active := (id, (s.reg tg).dev_ifindex_lookup_by_table_id) :: s.active,
            used := id :: s.used }
  | finish (s : RcuState) (p : Nat × Option Nat) (hmem : p ∈ s.active) :
      RcuStep tg fn s { s with active := s.active.erase p }
  | clear (s : RcuState) (hnc : s.cleared = false)
      (hok : (l3mdev_table_lookup_unregister s.reg tg fn).1 = 0) :
      RcuStep tg fn s
        { s with
            reg := (l3mdev_table_lookup_unregister s.reg tg fn).2,
            preClear := s.active.map Prod.fst,
            cleared := true }
  | ret (s : RcuState) (hc : s.cleared = true) (hnr : s.returned = false)
      (hq : ∀ id ∈ s.preClear, id ∉ s.active.map Prod.fst) :
      RcuStep tg fn s { s with returned := true }

/-- Reachability of a race state from `RcuState.init reg0`. -/
def RcuReach (tg : Int) (fn : Nat) (reg0 : Registry) (s : RcuState) : Prop :=
  Relation.ReflTransGen (RcuStep tg fn) (RcuState.init reg0) s

/-- Inductive invariant of the unregister race: after the clear the slot is
NULL; after the clear every in-flight reader holding a non-NULL callback
reference was already in flight at the clear; after the return none of the
readers in flight at the clear is still active; the return happens only
after the clear; recorded reader ids are used ids. -/
def RcuInv (tg : Int) (_fn : Nat) (s : RcuState) : Prop :=
  (s.cleared = true → (s.reg tg).dev_ifindex_lookup_by_table_id = none) ∧
  (s.cleared = true → ∀ p ∈ s.active, p.2 ≠ none → p.1 ∈ s.preClear) ∧
  (s.returned = true → ∀ id ∈ s.preClear, id ∉ s.active.map Prod.fst) ∧
  (s.returned = true → s.cleared = true) ∧
  (∀ id ∈ s.preClear, id ∈ s.used) ∧
  (∀ p ∈ s.active, p.1 ∈ s.used)

/-- A concrete registry with callback 7 registered at tag 1, the starting
point of a concrete unregister race. -/
def rcuReg0 : Registry :=
  (l3mdev_table_lookup_register l3mdev_handlers_init 1 7).2

/-- The state of the concrete unregister race just after the clear step. -/
def rcuAfterClear : RcuState :=
  { RcuState.init rcuReg0 with
      reg := (l3mdev_table_lookup_unregister (RcuState.init rcuReg0).reg 1 7).2,
      preClear := (RcuState.init rcuReg0).active.map Prod.fst,
      cleared := true }

/-!
Helper lemmas and sanity checks.  All definitions are above; everything from
here on is proof.
-/

example :
    (l3mdev_table_lookup_register l3mdev_handlers_init 1 7).1 = 0 := by decide

example :
    l3mdev_ifindex_lookup_by_table_id (fun _ _ _ => 0) l3mdev_handlers_init
      0 0 1 = -22 := by decide

example :
    l3mdev_ifindex_lookup_by_table_id (fun f ns id => (f + ns + id : Int))
      (l3mdev_table_lookup_register l3mdev_handlers_init 1 7).2 5 9 1 = 21 := by
  decide

/-- A valid tag passes `l3mdev_check_type`. -/
lemma check_type_valid (tg : Int) (h1 : 1 ≤ tg) (h2 : tg ≤ L3MDEV_TYPE_MAX) :
    l3mdev_check_type tg = 0 := by
  unfold l3mdev_check_type L3MDEV_TYPE_UNSPEC at *
  rw [if_neg]
  omega

/-- An invalid tag fails `l3mdev_check_type` with `-EINVAL`. -/
lemma check_type_invalid (tg : Int) (h : tg ≤ 0 ∨ tg > L3MDEV_TYPE_MAX) :
    l3mdev_check_type tg = -EINVAL := by
  unfold l3mdev_check_type L3MDEV_TYPE_UNSPEC at *
  rw [if_pos]
  omega

/-- A successful `l3mdev_table_lookup_unregister` leaves the slot for its tag
with a NULL callback. -/
lemma unregister_ok_clears (st : Registry) (tg : Int) (fn : Nat)
    (hok : (l3mdev_table_lookup_unregister st tg fn).1 = 0) :
    ((l3mdev_table_lookup_unregister st tg fn).2 tg).dev_ifindex_lookup_by_table_id
      = none := by
  unfold l3mdev_table_lookup_unregister at hok ⊢
  by_cases h1 : l3mdev_check_type tg ≠ 0
  · simp [h1] at hok
  · simp [h1] at hok ⊢
    by_cases h2 : (st tg).l3type ≠ tg ∨ (st tg).dev_ifindex_lookup_by_table_id ≠ some fn
    · simp [h2, EINVAL] at hok
    · simp [h2]

lemma rcuInv_init (tg : Int) (fn : Nat) (reg0 : Registry) :
    RcuInv tg fn (RcuState.init reg0) := by
  simp [RcuInv, RcuState.init]

lemma rcuInv_step (tg : Int) (fn : Nat) (s s' : RcuState)
    (hinv : RcuInv tg fn s) (hstep : RcuStep tg fn s s') :
    RcuInv tg fn s' := by
  obtain ⟨h1, h2, h3, h4, h5, h6⟩ := hinv
  cases hstep with
  | start id hfresh =>
    refine ⟨h1, ?_, ?_, h4, ?_, ?_⟩
    · intro hc p hp hne
      rcases List.mem_cons.mp hp with rfl | hp
      · exact absurd (h1 hc) (by simpa using hne)
      · exact h2 hc p hp hne
    · intro hr idp hidp
      have hid : idp ∈ s.used := h5 idp hidp
      have hne : idp ≠ id := fun h => hfresh (h ▸ hid)
      simpa [hne] using h3 hr idp hidp
    · intro idp hidp
      exact List.mem_cons_of_mem _ (h5 idp hidp)
    · intro p hp
      rcases List.mem_cons.mp hp with rfl | hp
      · exact List.mem_cons_self _ _
      · exact List.mem_cons_of_mem _ (h6 p hp)
  | finish p hmem =>
    refine ⟨h1, ?_, ?_, h4, h5, ?_⟩
    · intro hc q hq hne
      exact h2 hc q (List.mem_of_mem_erase hq) hne
    · intro hr idp hidp hmem2
      rcases List.mem_map.mp hmem2 with ⟨q, hq, hq1⟩
      exact h3 hr idp hidp (List.mem_map.mpr ⟨q, List.mem_of_mem_erase hq, hq1⟩)
    · intro q hq
      exact h6 q (List.mem_of_mem_erase hq)
  | clear hnc hok =>
    refine ⟨?_, ?_, ?_, ?_, ?_, h6⟩
    · intro _
      exact unregister_ok_clears s.reg tg fn hok
    · intro _ p hp _
      exact List.mem_map.mpr ⟨p, hp, rfl⟩
    · intro hr
      exact absurd (h4 hr) (by simp [hnc])
    · intro _
      rfl
    · intro idp hidp
      rcases List.mem_map.mp hidp with ⟨q, hq, hq1⟩
      exact hq1 ▸ h6 q hq
  | ret hc hnr hq =>
    exact ⟨h1, h2, fun _ => hq, fun _ => hc, h5, h6⟩

lemma rcuInv_reach (tg : Int) (fn : Nat) (reg0 : Registry) (s : RcuState)
    (h : RcuReach tg fn reg0 s) : RcuInv tg fn s := by
  induction h with
  | refl => exact rcuInv_init tg fn reg0
  | tail _ hstep ih => exact rcuInv_step tg fn _ _ ih hstep

/-- If the loop exits at cursor `r`, then `r` is the first exit cursor along
the chain from the start cursor. -/
lemma upperWalk_reachesFirst (M : DevModel) :
    ∀ fuel dev r, upperWalk M fuel dev = some r → ReachesFirst M dev r := by
  intro fuel
  induction fuel with
  | zero =>
    intro dev r h
    unfold upperWalk at h
    by_cases hd : upperLoopDone M dev = true
    · rw [if_pos hd] at h
      obtain rfl : dev = r := by simpa using h
      cases dev with
      | none => exact ReachesFirst.chainEnd
      | some d => exact ReachesFirst.foundMaster d (by simpa [upperLoopDone] using hd)
    · simp [hd] at h
  | succ n ih =>
    intro dev r h
    unfold upperWalk at h
    by_cases hd : upperLoopDone M dev = true
    · rw [if_pos hd] at h
      obtain rfl : dev = r := by simpa using h
      cases dev with
      | none => exact ReachesFirst.chainEnd
      | some d => exact ReachesFirst.foundMaster d (by simpa [upperLoopDone] using hd)
    · rw [if_neg hd] at h
      cases dev with
      | none => exact absurd (rfl : upperLoopDone M none = true) hd
      | some d =>
        exact ReachesFirst.step d r (by simpa [upperLoopDone] using hd) (ih _ r h)

/-- The exit cursor of the loop, when it is a device, is an L3 master. -/
lemma reachesFirst_master (M : DevModel) (dev r : Option Nat)
    (h : ReachesFirst M dev r) :
    ∀ m, r = some m → M.netif_is_l3_master m = true := by
  induction h with
  | chainEnd => intro m hm; cases hm
  | foundMaster d hd => intro m hm; cases hm; exact hd
  | step d r hd hr ih => exact ih

/-- When every hop from a non-master strictly decreases a rank, the loop
exits within `devRank` iterations. -/
lemma upperWalk_exits (M : DevModel) (rank : Nat → Nat)
    (hrank : ∀ d e, M.netif_is_l3_master d = false →
      M.netdev_master_upper_dev_get_rcu d = some e → rank e < rank d) :
    ∀ fuel dev, devRank rank dev ≤ fuel → ∃ r, upperWalk M fuel dev = some r := by
  intro fuel
  induction fuel with
  | zero =>
    intro dev hle
    cases dev with
    | none => exact ⟨none, by simp [upperWalk, upperLoopDone]⟩
    | some d => simp [devRank] at hle
  | succ n ih =>
    intro dev hle
    cases dev with
    | none => exact ⟨none, by simp [upperWalk, upperLoopDone]⟩
    | some d =>
      by_cases hm : M.netif_is_l3_master d = true
      · exact ⟨some d, by simp [upperWalk, upperLoopDone, hm]⟩
      · have hm' : M.netif_is_l3_master d = false := by simpa using hm
        have hnext : devRank rank (M.netdev_master_upper_dev_get_rcu d) ≤ n := by
          cases hup : M.netdev_master_upper_dev_get_rcu d with
          | none => simp [devRank]
          | some e =>
            have := hrank d e hm' hup
            simp [devRank] at hle ⊢
            omega
        obtain ⟨r, hr⟩ := ih (M.netdev_master_upper_dev_get_rcu d) hnext
        exact ⟨r, by simp [upperWalk, upperLoopDone, hm', hr]⟩

/-- Inversion of a hit of the per-handle resolution block of
`l3mdev_update_flow`. -/
lemma flow_master_some_inv (M : DevModel) (h i : Int)
    (hs : l3mdev_flow_master M h = some i) :
    h ≠ 0 ∧ ∃ d, M.dev_get_by_index_rcu h = some d ∧
      l3mdev_master_ifindex_rcu M (some d) = i ∧ i ≠ 0 := by
  unfold l3mdev_flow_master at hs
  by_cases h0 : h ≠ 0
  · rw [if_pos h0] at hs
    refine ⟨h0, ?_⟩
    cases hd : M.dev_get_by_index_rcu h with
    | none => rw [hd] at hs; cases hs
    | some d =>
      rw [hd] at hs
      have hs' : ¬ l3mdev_master_ifindex_rcu M (some d) = 0 ∧
          l3mdev_master_ifindex_rcu M (some d) = i := by simpa using hs
      exact ⟨d, rfl, hs'.2, fun h0 => hs'.1 (hs'.2.trans h0)⟩
  · rw [if_neg h0] at hs
    cases hs

/-- A hit of the resolution block, from its source-level conditions. -/
lemma flow_master_some_intro (M : DevModel) (h i : Int) (d : Nat)
    (h0 : h ≠ 0) (hd : M.dev_get_by_index_rcu h = some d)
    (hi : l3mdev_master_ifindex_rcu M (some d) = i) (hne : i ≠ 0) :
    l3mdev_flow_master M h = some i := by
  subst hi
  simp [l3mdev_flow_master, h0, hd, hne]

/-- A miss of the resolution block, from the source-level miss conditions:
zero handle, unresolved handle, or a device with no governing master. -/
lemma flow_master_none_of_miss (M : DevModel) (h : Int)
    (hmiss : h = 0 ∨ M.dev_get_by_index_rcu h = none ∨
      (∃ d, M.dev_get_by_index_rcu h = some d ∧
        l3mdev_master_ifindex_rcu M (some d) = 0)) :
    l3mdev_flow_master M h = none := by
  unfold l3mdev_flow_master
  rcases hmiss with h0 | hd | ⟨d, hd, hi⟩
  · simp [h0]
  · by_cases h0 : h ≠ 0
    · simp [h0, hd]
    · simp [h0]
  · by_cases h0 : h ≠ 0
    · simp [h0, hd, hi]
    · simp [h0]

/-- Inversion of a nonzero `l3mdev_master_ifindex_rcu` result: the device is
an L3 master and the result its own ifindex, or an L3 slave and the result
its master upper device's ifindex. -/
lemma master_ifindex_inv (M : DevModel) (d : Nat) (i : Int)
    (h : l3mdev_master_ifindex_rcu M (some d) = i) (hne : i ≠ 0) :
    (M.netif_is_l3_master d = true ∧ i = M.ifindex d) ∨
    (M.netif_is_l3_master d = false ∧ M.netif_is_l3_slave d = true ∧
      ∃ m, M.netdev_master_upper_dev_get_rcu d = some m ∧ i = M.ifindex m) := by
  simp only [l3mdev_master_ifindex_rcu] at h
  by_cases hm : M.netif_is_l3_master d = true
  · rw [if_pos hm] at h
    exact Or.inl ⟨hm, h.symm⟩
  · have hm' : M.netif_is_l3_master d = false := by simpa using hm
    rw [if_neg hm] at h
    by_cases hs : M.netif_is_l3_slave d = true
    · rw [if_pos hs] at h
      cases hup : M.netdev_master_upper_dev_get_rcu d with
      | none => rw [hup] at h; exact absurd h.symm hne
      | some m =>
        rw [hup] at h
        exact Or.inr ⟨hm', hs, m, rfl, h.symm⟩
    · rw [if_neg hs] at h
      exact absurd h.symm hne

/-- Under a well-formed device model, a handle produced by a hit of the
resolution block resolves to itself: it is the handle of an L3 master. -/
lemma flow_master_fixpoint (M : DevModel) (hwf : M.WellFormed) (h i : Int)
    (hs : l3mdev_flow_master M h = some i) :
    l3mdev_flow_master M i = some i := by
  obtain ⟨h0, d, hd, hi, hne⟩ := flow_master_some_inv M h i hs
  rcases master_ifindex_inv M d i hi hne with ⟨hm, rfl⟩ | ⟨hm, hsl, m, hup, rfl⟩
  · refine flow_master_some_intro M _ _ d hne (hwf.1 d) ?_ hne
    simp [l3mdev_master_ifindex_rcu, hm]
  · have hmm : M.netif_is_l3_master m = true := hwf.2 d m hsl hup
    refine flow_master_some_intro M _ _ m hne (hwf.1 m) ?_ hne
    simp [l3mdev_master_ifindex_rcu, hmm]

/-- The all-masters witness model is well-formed. -/
lemma MwfAllMasters_wf : MwfAllMasters.WellFormed := by
  constructor
  · intro d
    have h1 : ¬ ((d : Int) + 1 ≤ 0) := by omega
    simp [MwfAllMasters, h1]
  · intro d m hd
    simp [MwfAllMasters] at hd

/-!
Claim theorems.
-/

/-- Claim C2 (counterexample): with no callback registered, a lookup at the
valid tag 1 returns `-22` (`-EINVAL`), which is not the claimed zero/none
sentinel; the invalid tag 0 yields the same `-22`. -/
theorem lookup_sentinel_cex :
    l3mdev_ifindex_lookup_by_table_id (fun _ _ _ => 99) l3mdev_handlers_init
      3 7 1 = -22 ∧
    (-22 : Int) ≠ 0 ∧
    l3mdev_ifindex_lookup_by_table_id (fun _ _ _ => 99) l3mdev_handlers_init
      3 7 0 = -22 := by
  refine ⟨by decide, by decide, by decide⟩

/-- Claim C2 (amended): `l3mdev_ifindex_lookup_by_table_id` never invokes a
callback unless one is installed; it returns the `-EINVAL` sentinel (not a
zero/none result) both when the tag is invalid and when no callback is
registered in the tag's slot; only when a callback is installed does it
invoke it and return its result. -/
theorem lookup_result_spec (env : Env) (st : Registry) (net tid : Nat)
    (tg : Int) :
    ((tg ≤ 0 ∨ tg > L3MDEV_TYPE_MAX) →
      l3mdev_ifindex_lookup_by_table_id env st net tid tg = -EINVAL) ∧
    (1 ≤ tg → tg ≤ L3MDEV_TYPE_MAX →
      (st tg).dev_ifindex_lookup_by_table_id = none →
      l3mdev_ifindex_lookup_by_table_id env st net tid tg = -EINVAL) ∧
    (∀ fn, 1 ≤ tg → tg ≤ L3MDEV_TYPE_MAX →
      (st tg).dev_ifindex_lookup_by_table_id = some fn →
      l3mdev_ifindex_lookup_by_table_id env st net tid tg = env fn net tid) := by
  refine ⟨?_, ?_, ?_⟩
  · intro hinv
    have hc := check_type_invalid tg hinv
    unfold l3mdev_ifindex_lookup_by_table_id
    rw [hc]
    norm_num [EINVAL]
  · intro h1 h2 hn
    have hc := check_type_valid tg h1 h2
    unfold l3mdev_ifindex_lookup_by_table_id
    rw [hc]
    simp [hn]
  · intro fn h1 h2 hf
    have hc := check_type_valid tg h1 h2
    unfold l3mdev_ifindex_lookup_by_table_id
    rw [hc]
    simp [hf]

/-- Claim C2 witness: the amended statement at a concrete empty registry and
valid tag. -/
theorem lookup_result_spec_w :
    l3mdev_ifindex_lookup_by_table_id (fun _ _ _ => 99) l3mdev_handlers_init
      3 7 1 = -EINVAL :=
  (lookup_result_spec (fun _ _ _ => 99) l3mdev_handlers_init 3 7 1).2.1
    (by decide) (by decide) (by decide)

/-- Claim C3: for every valid tag, callback, namespace and table id,
starting from an empty slot for that tag, registration succeeds and an
immediately following lookup invokes the registered callback on the
namespace and table id and returns its result. -/
theorem register_then_lookup (env : Env) (st : Registry) (tg : Int) (fn : Nat)
    (net tid : Nat) (h1 : 1 ≤ tg) (h2 : tg ≤ L3MDEV_TYPE_MAX)
    (he1 : (st tg).l3type = L3MDEV_TYPE_UNSPEC)
    (he2 : (st tg).dev_ifindex_lookup_by_table_id = none) :
    (l3mdev_table_lookup_register st tg fn).1 = 0 ∧
    l3mdev_ifindex_lookup_by_table_id env
      (l3mdev_table_lookup_register st tg fn).2 net tid tg = env fn net tid := by
  have hc := check_type_valid tg h1 h2
  have hreg : l3mdev_table_lookup_register st tg fn =
      (0, fun t => if t = tg then ⟨tg, some fn⟩ else st t) := by
    unfold l3mdev_table_lookup_register
    rw [hc]
    simp [he1, he2]
  refine ⟨by rw [hreg], ?_⟩
  rw [hreg]
  unfold l3mdev_ifindex_lookup_by_table_id
  rw [hc]
  simp

/-- Claim C3 witness: registering callback 7 at tag 1 in the empty registry
and looking it up. -/
theorem register_then_lookup_w :
    (l3mdev_table_lookup_register l3mdev_handlers_init 1 7).1 = 0 ∧
    l3mdev_ifindex_lookup_by_table_id (fun f ns id => (f + ns + id : Int))
      (l3mdev_table_lookup_register l3mdev_handlers_init 1 7).2 5 9 1 =
      (fun f ns id => (f + ns + id : Int)) 7 5 9 :=
  register_then_lookup (fun f ns id => (f + ns + id : Int))
    l3mdev_handlers_init 1 7 5 9 (by decide) (by decide) (by decide) (by decide)

/-- Claim C4: register fails with `-EINVAL` (InvalidTag) on an unspecified
or over-maximum tag; register fails with `-EBUSY` (AlreadyRegistered) when
the slot's current tag equals the requested tag or a callback is installed;
unregister fails with `-EINVAL` (NotRegistered) when the slot's tag/callback
pair does not exactly match the given pair; and every failing register or
unregister call leaves the registry completely unchanged. -/
theorem register_unregister_errors (st : Registry) (tg : Int) (fn : Nat) :
    ((tg ≤ 0 ∨ tg > L3MDEV_TYPE_MAX) →
      l3mdev_table_lookup_register st tg fn = (-EINVAL, st)) ∧
    (1 ≤ tg → tg ≤ L3MDEV_TYPE_MAX →
      ((st tg).l3type = tg ∨ (st tg).dev_ifindex_lookup_by_table_id ≠ none) →
      l3mdev_table_lookup_register st tg fn = (-EBUSY, st)) ∧
    (¬ ((st tg).l3type = tg ∧
        (st tg).dev_ifindex_lookup_by_table_id = some fn) →
      l3mdev_table_lookup_unregister st tg fn = (-EINVAL, st)) ∧
    ((l3mdev_table_lookup_register st tg fn).1 ≠ 0 →
      (l3mdev_table_lookup_register st tg fn).2 = st) ∧
    ((l3mdev_table_lookup_unregister st tg fn).1 ≠ 0 →
      (l3mdev_table_lookup_unregister st tg fn).2 = st) := by
  refine ⟨?_, ?_, ?_, ?_, ?_⟩
  · intro hinv
    have hc := check_type_invalid tg hinv
    unfold l3mdev_table_lookup_register
    rw [hc]
    norm_num [EINVAL]
  · intro h1 h2 hocc
    have hc := check_type_valid tg h1 h2
    have hcond : (st tg).l3type ≠ L3MDEV_TYPE_UNSPEC ∨
        (st tg).dev_ifindex_lookup_by_table_id ≠ none := by
      rcases hocc with h | h
      · left
        rw [h]
        unfold L3MDEV_TYPE_UNSPEC
        omega
      · right
        exact h
    unfold l3mdev_table_lookup_register
    rw [hc]
    simp [hcond]
  · intro hmis
    unfold l3mdev_table_lookup_unregister
    by_cases hc : l3mdev_check_type tg ≠ 0
    · rw [if_pos hc]
      have hv : l3mdev_check_type tg = -EINVAL := by
        unfold l3mdev_check_type at hc ⊢
        by_cases h : tg ≤ L3MDEV_TYPE_UNSPEC ∨ tg > L3MDEV_TYPE_MAX
        · rw [if_pos h]
        · rw [if_neg h] at hc
          simp at hc
      rw [hv]
    · rw [if_neg hc]
      have hcond : (st tg).l3type ≠ tg ∨
          (st tg).dev_ifindex_lookup_by_table_id ≠ some fn :=
        not_and_or.mp hmis
      simp [hcond]
  · intro hfail
    unfold l3mdev_table_lookup_register at hfail ⊢
    by_cases hc : l3mdev_check_type tg ≠ 0
    · simp [hc]
    · simp only [hc, if_false] at hfail ⊢
      by_cases hcond : (st tg).l3type ≠ L3MDEV_TYPE_UNSPEC ∨
          (st tg).dev_ifindex_lookup_by_table_id ≠ none
      · simp [hcond]
      · simp [hcond] at hfail
  · intro hfail
    unfold l3mdev_table_lookup_unregister at hfail ⊢
    by_cases hc : l3mdev_check_type tg ≠ 0
    · simp [hc]
    · simp only [hc, if_false] at hfail ⊢
      by_cases hcond : (st tg).l3type ≠ tg ∨
          (st tg).dev_ifindex_lookup_by_table_id ≠ some fn
      · simp [hcond]
      · simp [hcond] at hfail

/-- Claim C4 witness: unregistering from the empty registry at the valid tag
1 fails with `-EINVAL` and leaves the registry unchanged. -/
theorem register_unregister_errors_w :
    l3mdev_table_lookup_unregister l3mdev_handlers_init 1 7 =
      (-EINVAL, l3mdev_handlers_init) :=
  (register_unregister_errors l3mdev_handlers_init 1 7).2.2.1 (by decide)

/-- Claim C5 (counterexample): in the initial all-empty registry, slot 0 has
stored tag 0 — equal to its own index — yet a NULL callback, so "the slot's
callback is non-null iff its stored tag equals its own index" fails at slot
index 0. -/
theorem registry_invariant_cex :
    (l3mdev_handlers_init 0).l3type = 0 ∧
    (l3mdev_handlers_init 0).dev_ifindex_lookup_by_table_id = none ∧
    ¬ ((l3mdev_handlers_init 0).dev_ifindex_lookup_by_table_id ≠ none ↔
        (l3mdev_handlers_init 0).l3type = 0) := by
  refine ⟨rfl, rfl, ?_⟩
  intro hiff
  exact absurd (hiff.mpr rfl) (by simp [l3mdev_handlers_init])

/-- Claim C5 (amended): restricted to the slots of valid (nonzero) tags, the
invariant — a slot's callback is non-null iff its stored tag equals its own
index — holds in the initial all-empty state and is preserved by every
register and unregister call, successful or failing; and it entails that at
most one registration exists per tag (two registered slots with the same
stored tag coincide). -/
theorem registry_invariant_preserved :
    RegIff l3mdev_handlers_init ∧
    (∀ st tg fn, RegIff st →
      RegIff (l3mdev_table_lookup_register st tg fn).2) ∧
    (∀ st tg fn, RegIff st →
      RegIff (l3mdev_table_lookup_unregister st tg fn).2) ∧
    (∀ st, RegIff st → ∀ t₁ t₂ : Int, 1 ≤ t₁ → t₁ ≤ L3MDEV_TYPE_MAX →
      1 ≤ t₂ → t₂ ≤ L3MDEV_TYPE_MAX →
      (st t₁).dev_ifindex_lookup_by_table_id ≠ none →
      (st t₂).dev_ifindex_lookup_by_table_id ≠ none →
      (st t₁).l3type = (st t₂).l3type → t₁ = t₂) := by
  refine ⟨?_, ?_, ?_, ?_⟩
  · intro t h1 h2
    simp [l3mdev_handlers_init, L3MDEV_TYPE_UNSPEC]
    omega
  · intro st tg fn hinv
    unfold l3mdev_table_lookup_register
    by_cases hc : l3mdev_check_type tg ≠ 0
    · simpa [hc] using hinv
    · by_cases hcond : (st tg).l3type ≠ L3MDEV_TYPE_UNSPEC ∨
          (st tg).dev_ifindex_lookup_by_table_id ≠ none
      · simpa [hc, hcond] using hinv
      · simp only [hc, if_false, hcond]
        intro t h1 h2
        by_cases ht : t = tg
        · subst ht
          simp
        · simpa [ht] using hinv t h1 h2
  · intro st tg fn hinv
    unfold l3mdev_table_lookup_unregister
    by_cases hc : l3mdev_check_type tg ≠ 0
    · simpa [hc] using hinv
    · by_cases hcond : (st tg).l3type ≠ tg ∨
          (st tg).dev_ifindex_lookup_by_table_id ≠ some fn
      · simpa [hc, hcond] using hinv
      · simp only [hc, if_false, hcond]
        intro t h1 h2
        by_cases ht : t = tg
        · subst ht
          simp [L3MDEV_TYPE_UNSPEC]
          omega
        · simpa [ht] using hinv t h1 h2
  · intro st hinv t₁ t₂ h11 h12 h21 h22 hc1 hc2 heq
    have e1 : (st t₁).l3type = t₁ := (hinv t₁ h11 h12).mp hc1
    have e2 : (st t₂).l3type = t₂ := (hinv t₂ h21 h22).mp hc2
    rw [e1, e2] at heq
    exact heq

/-- Claim C5 witness: the amended invariant after registering callback 7 at
tag 1 in the empty registry. -/
theorem registry_invariant_preserved_w :
    RegIff (l3mdev_table_lookup_register l3mdev_handlers_init 1 7).2 :=
  registry_invariant_preserved.2.1 l3mdev_handlers_init 1 7
    registry_invariant_preserved.1

/-- Claim C1: in the concurrent model of `l3mdev_table_lookup_unregister`
racing with lookups for its tag, every reachable state satisfies: once the
slot is cleared its callback reference is NULL, so a lookup that performs
its dereference after the clear obtains NULL and cannot invoke the removed
callback (any reader a step adds after the clear carries a NULL snapshot);
every in-flight reader still holding a non-NULL callback reference had
already dereferenced it before the clear; and once unregister has returned,
none of the readers that were in flight at the moment of the clear is still
active — the grace-period wait lets exactly those readers finish first. -/
theorem unregister_quiescence (tg : Int) (fn : Nat) (reg0 : Registry)
    (s : RcuState) (h : RcuReach tg fn reg0 s) :
    (s.cleared = true →
      (s.reg tg).dev_ifindex_lookup_by_table_id = none) ∧
    (∀ s', RcuStep tg fn s s' → s.cleared = true →
      ∀ p : Nat × Option Nat, p ∈ s'.active → p ∉ s.active → p.2 = none) ∧
    (s.cleared = true → ∀ p ∈ s.active, p.2 ≠ none → p.1 ∈ s.preClear) ∧
    (s.returned = true → ∀ id ∈ s.preClear, id ∉ s.active.map Prod.fst) := by
  obtain ⟨h1, h2, h3, _, _, _⟩ := rcuInv_reach tg fn reg0 s h
  refine ⟨h1, ?_, h2, h3⟩
  intro s' hstep hc p hmem hnot
  cases hstep with
  | start id hfresh =>
    rcases List.mem_cons.mp hmem with rfl | hmem2
    · exact h1 hc
    · exact absurd hmem2 hnot
  | finish q hq => exact absurd (List.mem_of_mem_erase hmem) hnot
  | clear hnc hok => exact absurd hmem hnot
  | ret hc2 hnr hq => exact absurd hmem hnot

/-- Claim C1 witness: the quiescence theorem at the concrete race whose
single step so far is the clear of tag 1's registration of callback 7. -/
theorem unregister_quiescence_w :
    (rcuAfterClear.cleared = true →
      (rcuAfterClear.reg 1).dev_ifindex_lookup_by_table_id = none) ∧
    (∀ s', RcuStep 1 7 rcuAfterClear s' → rcuAfterClear.cleared = true →
      ∀ p : Nat × Option Nat, p ∈ s'.active → p ∉ rcuAfterClear.active →
        p.2 = none) ∧
    (rcuAfterClear.cleared = true → ∀ p ∈ rcuAfterClear.active,
      p.2 ≠ none → p.1 ∈ rcuAfterClear.preClear) ∧
    (rcuAfterClear.returned = true → ∀ id ∈ rcuAfterClear.preClear,
      id ∉ rcuAfterClear.active.map Prod.fst) :=
  unregister_quiescence 1 7 rcuReg0 rcuAfterClear
    (Relation.ReflTransGen.single
      (RcuStep.clear (RcuState.init rcuReg0) rfl (by decide)))

/-- Claim C6: `l3mdev_master_ifindex_rcu` returns the device's own ifindex
when the device is an L3 master, the immediate master upper device's ifindex
when it is an L3 slave that currently has one, and zero in every other case
(neither master nor slave, or a slave currently without a master). -/
theorem master_ifindex_cases (M : DevModel) (d : Nat) :
    (M.netif_is_l3_master d = true →
      l3mdev_master_ifindex_rcu M (some d) = M.ifindex d) ∧
    (M.netif_is_l3_master d = false → M.netif_is_l3_slave d = true →
      (∀ m, M.netdev_master_upper_dev_get_rcu d = some m →
        l3mdev_master_ifindex_rcu M (some d) = M.ifindex m) ∧
      (M.netdev_master_upper_dev_get_rcu d = none →
        l3mdev_master_ifindex_rcu M (some d) = 0)) ∧
    (M.netif_is_l3_master d = false → M.netif_is_l3_slave d = false →
      l3mdev_master_ifindex_rcu M (some d) = 0) := by
  refine ⟨?_, ?_, ?_⟩
  · intro hm
    simp [l3mdev_master_ifindex_rcu, hm]
  · intro hm hs
    constructor
    · intro m hup
      simp [l3mdev_master_ifindex_rcu, hm, hs, hup]
    · intro hup
      simp [l3mdev_master_ifindex_rcu, hm, hs, hup]
  · intro hm hs
    simp [l3mdev_master_ifindex_rcu, hm, hs]

/-- Claim C6 witness: in the scenario model, the slave device 5 resolves to
its master 42's ifindex. -/
theorem master_ifindex_cases_w :
    l3mdev_master_ifindex_rcu Mscen (some 5) = Mscen.ifindex 42 :=
  ((master_ifindex_cases Mscen 5).2.1 (by decide) (by decide)).1 42 (by decide)

/-- Claim C7 (counterexample): on a cyclic, non-progressing master chain the
loop of `l3mdev_master_upper_ifindex_by_index_rcu` does not terminate at the
first non-progressing step — it is still running after every number of
iterations.  In `Mcyc`, handle 1 resolves to device 0, which is not an L3
master and is its own master upper device. -/
theorem upper_ifindex_cycle_cex :
    Mcyc.netif_is_l3_master 0 = false ∧
    Mcyc.netdev_master_upper_dev_get_rcu 0 = some 0 ∧
    Mcyc.dev_get_by_index_rcu 1 = some 0 ∧
    upperWalkDiverges Mcyc (Mcyc.dev_get_by_index_rcu 1) := by
  have h0 : ∀ fuel, upperWalk Mcyc fuel (some 0) = none := by
    intro fuel
    induction fuel with
    | zero => rfl
    | succ n ih => simpa [upperWalk, upperLoopDone, Mcyc] using ih
  have hidx : Mcyc.dev_get_by_index_rcu 1 = some 0 := by decide
  refine ⟨rfl, rfl, hidx, ?_⟩
  intro fuel
  rw [hidx]
  exact h0 fuel

/-- Claim C7 (amended): `l3mdev_master_upper_ifindex_by_index_rcu` walks
upward through successive master-upper relations from the device the handle
resolves to; whenever each hop from a non-master strictly decreases some
rank (the device graph is acyclic, as the kernel maintains), the loop
terminates, exits at the first cursor that is an L3 master or the chain end,
and the function returns that master's ifindex or zero; on a cyclic,
non-progressing chain the loop never exits. -/
theorem upper_ifindex_terminates (M : DevModel) (rank : Nat → Nat) (h : Int)
    (hrank : ∀ d e, M.netif_is_l3_master d = false →
      M.netdev_master_upper_dev_get_rcu d = some e → rank e < rank d) :
    ∃ fuel r, upperWalk M fuel (M.dev_get_by_index_rcu h) = some r ∧
      ReachesFirst M (M.dev_get_by_index_rcu h) r ∧
      (∀ m, r = some m → M.netif_is_l3_master m = true ∧
        l3mdev_master_upper_ifindex_by_index_rcu M fuel h =
          some (M.ifindex m)) ∧
      (r = none →
        l3mdev_master_upper_ifindex_by_index_rcu M fuel h = some 0) := by
  obtain ⟨r, hr⟩ := upperWalk_exits M rank hrank
    (devRank rank (M.dev_get_by_index_rcu h)) (M.dev_get_by_index_rcu h) le_rfl
  refine ⟨_, r, hr, upperWalk_reachesFirst M _ _ r hr, ?_, ?_⟩
  · intro m hm
    refine ⟨reachesFirst_master M _ r (upperWalk_reachesFirst M _ _ r hr) m hm,
      ?_⟩
    subst hm
    simp [l3mdev_master_upper_ifindex_by_index_rcu, hr]
  · intro hnone
    subst hnone
    simp [l3mdev_master_upper_ifindex_by_index_rcu, hr]

/-- Claim C7 witness: the amended statement on the all-masters model, where
the constant rank works because no device is a non-master with an upper
device. -/
theorem upper_ifindex_terminates_w :
    ∃ fuel r,
      upperWalk MwfAllMasters fuel (MwfAllMasters.dev_get_by_index_rcu 1) =
        some r ∧
      ReachesFirst MwfAllMasters (MwfAllMasters.dev_get_by_index_rcu 1) r ∧
      (∀ m, r = some m → MwfAllMasters.netif_is_l3_master m = true ∧
        l3mdev_master_upper_ifindex_by_index_rcu MwfAllMasters fuel 1 =
          some (MwfAllMasters.ifindex m)) ∧
      (r = none →
        l3mdev_master_upper_ifindex_by_index_rcu MwfAllMasters fuel 1 =
          some 0) :=
  upper_ifindex_terminates MwfAllMasters (fun _ => 0) 1
    (by
      intro d e hde
      simp [MwfAllMasters] at hde)

/-- Claim C8: `l3mdev_update_flow` mutates the flow with output-interface
priority: when the output interface is set, resolves to a device, and
`l3mdev_master_ifindex_rcu` yields a nonzero master ifindex, the output
interface is replaced by it, `FLOWI_FLAG_SKIP_NH_OIF` is set, and the input
interface is not examined (it is left unchanged); otherwise, when the input
interface is set and resolves the same way, the input interface is replaced
and the same flag set. -/
theorem update_flow_priority (M : DevModel) (fl : Flowi) :
    (∀ d i, fl.flowi_oif ≠ 0 →
      M.dev_get_by_index_rcu fl.flowi_oif = some d →
      l3mdev_master_ifindex_rcu M (some d) = i → i ≠ 0 →
      l3mdev_update_flow M fl =
        { fl with flowi_oif := i,
                  flowi_flags := fl.flowi_flags ||| FLOWI_FLAG_SKIP_NH_OIF }) ∧
    ((fl.flowi_oif = 0 ∨ M.dev_get_by_index_rcu fl.flowi_oif = none ∨
        (∃ d, M.dev_get_by_index_rcu fl.flowi_oif = some d ∧
          l3mdev_master_ifindex_rcu M (some d) = 0)) →
      ∀ d i, fl.flowi_iif ≠ 0 →
        M.dev_get_by_index_rcu fl.flowi_iif = some d →
        l3mdev_master_ifindex_rcu M (some d) = i → i ≠ 0 →
        l3mdev_update_flow M fl =
          { fl with flowi_iif := i,
                    flowi_flags := fl.flowi_flags ||| FLOWI_FLAG_SKIP_NH_OIF }) := by
  constructor
  · intro d i h0 hd hi hne
    have hhit := flow_master_some_intro M fl.flowi_oif i d h0 hd hi hne
    simp [l3mdev_update_flow, hhit]
  · intro hmiss d i h0 hd hi hne
    have hm := flow_master_none_of_miss M fl.flowi_oif hmiss
    have hhit := flow_master_some_intro M fl.flowi_iif i d h0 hd hi hne
    simp [l3mdev_update_flow, hm, hhit]

/-- Claim C8 witness: the spec's scenario — a flow with output interface 5,
a slave of master 42, ends with output interface 42 and the skip-binding
flag set, its input interface untouched. -/
theorem update_flow_priority_w :
    l3mdev_update_flow Mscen ⟨5, 3, 0, 9⟩ =
      { flowi_oif := 42, flowi_iif := 3,
        flowi_flags := 0 ||| FLOWI_FLAG_SKIP_NH_OIF, flowi_rest := 9 } :=
  (update_flow_priority Mscen ⟨5, 3, 0, 9⟩).1 5 42
    (by decide) (by decide) (by decide) (by decide)

/-- Claim C9: under a well-formed device model (the spec's device-model
contract), `l3mdev_update_flow` is idempotent: applying it twice yields
exactly the state of applying it once. -/
theorem update_flow_idempotent (M : DevModel) (fl : Flowi)
    (hwf : M.WellFormed) :
    l3mdev_update_flow M (l3mdev_update_flow M fl) =
      l3mdev_update_flow M fl := by
  cases ho : l3mdev_flow_master M fl.flowi_oif with
  | some i =>
    have hfix := flow_master_fixpoint M hwf _ _ ho
    simp [l3mdev_update_flow, ho, hfix, Nat.lor_assoc]
  | none =>
    cases hi : l3mdev_flow_master M fl.flowi_iif with
    | some i =>
      have hfix := flow_master_fixpoint M hwf _ _ hi
      simp [l3mdev_update_flow, ho, hi, hfix, Nat.lor_assoc]
    | none =>
      simp [l3mdev_update_flow, ho, hi]

/-- Claim C9 witness: idempotence on a concrete well-formed model and
flow. -/
theorem update_flow_idempotent_w :
    l3mdev_update_flow MwfAllMasters
        (l3mdev_update_flow MwfAllMasters ⟨3, 2, 0, 1⟩) =
      l3mdev_update_flow MwfAllMasters ⟨3, 2, 0, 1⟩ :=
  update_flow_idempotent MwfAllMasters ⟨3, 2, 0, 1⟩ MwfAllMasters_wf

/-- Claim C10: `l3mdev_update_flow` modifies at most the output interface,
input interface and flags fields (every other field is unchanged); when
neither interface handle resolves to a governing master — zero handles,
unresolved handles, or devices without masters — the flow is left completely
unchanged, in particular the skip flag is not set; and when the output
interface is substituted, the input interface handle is unchanged. -/
theorem update_flow_frame (M : DevModel) (fl : Flowi) :
    ((l3mdev_update_flow M fl).flowi_rest = fl.flowi_rest) ∧
    (((fl.flowi_oif = 0 ∨ M.dev_get_by_index_rcu fl.flowi_oif = none ∨
        (∃ d, M.dev_get_by_index_rcu fl.flowi_oif = some d ∧
          l3mdev_master_ifindex_rcu M (some d) = 0)) ∧
      (fl.flowi_iif = 0 ∨ M.dev_get_by_index_rcu fl.flowi_iif = none ∨
        (∃ d, M.dev_get_by_index_rcu fl.flowi_iif = some d ∧
          l3mdev_master_ifindex_rcu M (some d) = 0))) →
      l3mdev_update_flow M fl = fl) ∧
    (∀ d i, fl.flowi_oif ≠ 0 →
      M.dev_get_by_index_rcu fl.flowi_oif = some d →
      l3mdev_master_ifindex_rcu M (some d) = i → i ≠ 0 →
      (l3mdev_update_flow M fl).flowi_iif = fl.flowi_iif) := by
  refine ⟨?_, ?_, ?_⟩
  · unfold l3mdev_update_flow
    cases l3mdev_flow_master M fl.flowi_oif with
    | some i => rfl
    | none =>
      cases l3mdev_flow_master M fl.flowi_iif with
      | some i => rfl
      | none => rfl
  · rintro ⟨hmo, hmi⟩
    simp [l3mdev_update_flow, flow_master_none_of_miss M fl.flowi_oif hmo,
      flow_master_none_of_miss M fl.flowi_iif hmi]
  · intro d i h0 hd hi hne
    have hhit := flow_master_some_intro M fl.flowi_oif i d h0 hd hi hne
    simp [l3mdev_update_flow, hhit]

/-- Claim C10 witness: a flow with both handles zero passes through
`l3mdev_update_flow` completely unchanged. -/
theorem update_flow_frame_w :
    l3mdev_update_flow Mscen ⟨0, 0, 0, 7⟩ = ⟨0, 0, 0, 7⟩ :=
  (update_flow_frame Mscen ⟨0, 0, 0, 7⟩).2.1 ⟨Or.inl rfl, Or.inl rfl⟩
